import Mathlib

/-!
Verification of the real-time audio streaming core of the
Guyanese-Language-Culture-assistant repository.

The development shallowly embeds the audio helper functions
(`src/utils/audioHelpers.ts`, delivered as `src/unnamed/part_000`) and the
live-conversation handlers of `src/App.tsx`:

* JavaScript strings are modelled as Lean `String`s (lists of characters),
  `Uint8Array`s as `List Nat` with every element below 256, `Int16Array`
  elements as `ℤ` in the 16-bit signed range, and `Float32Array` samples as
  `ℚ` (every operation the source performs on samples — scaling by the power
  of two 32768, truncation, and division by 32768 — is exact on binary
  floating point numbers in the ranges involved, so the rational model is
  faithful).
* The browser builtins `btoa`/`atob` used by `encode`/`decode` are modelled
  by `btoaBytes`/`atobChars` following the standard base64 algorithm (the
  canonical padded form that `btoa` produces).
* The React component's refs and state hooks become fields of an explicit
  `AppState`; each event handler becomes a function from `AppState` to
  `AppState` (in the `Except String` monad where the source could throw).
-/

/-- The 64-character standard base64 alphabet used by `btoa`/`atob`. -/
def b64Alphabet : List Char :=
  "ABCDEFGHIJKLMNOPQRSTUVWXYZabcdefghijklmnopqrstuvwxyz0123456789+/".data

/-- The base64 digit for a 6-bit value. -/
def b64Char (n : Nat) : Char := b64Alphabet.getD n '?'

/-- The 6-bit value of a base64 digit; `none` for characters outside the
alphabet (`atob` throws on those). -/
def b64Index (c : Char) : Option Nat :=
  let i := b64Alphabet.indexOf c
  if i < 64 then some i else none

/-- Model of the browser builtin `btoa` applied to a binary string whose code
points are the given bytes: standard base64 with '=' padding, three input
bytes per four output digits. -/
def btoaBytes : List Nat → List Char
  | [] => []
  | [b0] =>
      [b64Char (b0 / 4), b64Char (b0 % 4 * 16), '=', '=']
  | [b0, b1] =>
      [b64Char (b0 / 4), b64Char (b0 % 4 * 16 + b1 / 16), b64Char (b1 % 16 * 4), '=']
  | b0 :: b1 :: b2 :: rest =>
      b64Char (b0 / 4) :: b64Char (b0 % 4 * 16 + b1 / 16) ::
      b64Char (b1 % 16 * 4 + b2 / 64) :: b64Char (b2 % 64) :: btoaBytes rest

/-- Model of the browser builtin `atob`, returning the code points of the
decoded binary string; `none` where `atob` throws (invalid digits, misplaced
padding, or a leftover chunk of length 1). -/
def atobChars : List Char → Option (List Nat)
  | [] => some []
  | [c0, c1] => do
      let s0 ← b64Index c0
      let s1 ← b64Index c1
      some [s0 * 4 + s1 / 16]
  | [c0, c1, c2] => do
      let s0 ← b64Index c0
      let s1 ← b64Index c1
      let s2 ← b64Index c2
      some [s0 * 4 + s1 / 16, s1 % 16 * 16 + s2 / 4]
  | c0 :: c1 :: c2 :: c3 :: rest =>
      if c2 = '=' then
        if c3 = '=' ∧ rest = [] then do
          let s0 ← b64Index c0
          let s1 ← b64Index c1
          some [s0 * 4 + s1 / 16]
        else none
      else if c3 = '=' then
        if rest = [] then do
          let s0 ← b64Index c0
          let s1 ← b64Index c1
          let s2 ← b64Index c2
          some [s0 * 4 + s1 / 16, s1 % 16 * 16 + s2 / 4]
        else none
      else do
        let s0 ← b64Index c0
        let s1 ← b64Index c1
        let s2 ← b64Index c2
        let s3 ← b64Index c3
        let tail ← atobChars rest
        some ((s0 * 4 + s1 / 16) :: (s1 % 16 * 16 + s2 / 4) :: (s2 % 4 * 64 + s3) :: tail)
  | _ => none

/-- `encode` from `src/unnamed/part_000` lines 23-30: builds a binary string
from the bytes with `String.fromCharCode` and applies `btoa`. -/
def encode (bytes : List Nat) : String := String.mk (btoaBytes bytes)

/-- `decode` from `src/unnamed/part_000` lines 8-16: applies `atob` and reads
the code point of every character of the result; `none` models the exception
`atob` throws on invalid input. -/
def decode (base64 : String) : Option (List Nat) := atobChars base64.data

/-- Every 6-bit value is encoded to an alphabet character that decodes back to
it and is distinct from the padding character. -/
theorem b64Char_spec : ∀ n : Nat, n < 64 → b64Index (b64Char n) = some n ∧ b64Char n ≠ '=' := by
  decide

/-- The base64 round trip at the level of byte lists: decoding the encoding of
any byte sequence returns the sequence. -/
theorem atob_btoa : ∀ bs : List Nat, (∀ b ∈ bs, b < 256) → atobChars (btoaBytes bs) = some bs
  | [], _ => by simp [btoaBytes, atobChars]
  | [b0], h => by
      have hb0 : b0 < 256 := h b0 (by simp)
      obtain ⟨h0, _⟩ := b64Char_spec (b0 / 4) (by omega)
      obtain ⟨h1, _⟩ := b64Char_spec (b0 % 4 * 16) (by omega)
      simp [btoaBytes, atobChars, h0, h1]
      omega
  | [b0, b1], h => by
      have hb0 : b0 < 256 := h b0 (by simp)
      have hb1 : b1 < 256 := h b1 (by simp)
      obtain ⟨h0, _⟩ := b64Char_spec (b0 / 4) (by omega)
      obtain ⟨h1, _⟩ := b64Char_spec (b0 % 4 * 16 + b1 / 16) (by omega)
      obtain ⟨h2, hne2⟩ := b64Char_spec (b1 % 16 * 4) (by omega)
      simp [btoaBytes, atobChars, h0, h1, h2, hne2]
      omega
  | b0 :: b1 :: b2 :: rest, h => by
      have hb0 : b0 < 256 := h b0 (by simp)
      have hb1 : b1 < 256 := h b1 (by simp)
      have hb2 : b2 < 256 := h b2 (by simp)
      have hrest : ∀ b ∈ rest, b < 256 := fun b hb => h b (by simp [hb])
      have ih := atob_btoa rest hrest
      obtain ⟨h0, _⟩ := b64Char_spec (b0 / 4) (by omega)
      obtain ⟨h1, _⟩ := b64Char_spec (b0 % 4 * 16 + b1 / 16) (by omega)
      obtain ⟨h2, hne2⟩ := b64Char_spec (b1 % 16 * 4 + b2 / 64) (by omega)
      obtain ⟨h3, hne3⟩ := b64Char_spec (b2 % 64) (by omega)
      simp [btoaBytes, atobChars, h0, h1, h2, h3, hne2, hne3, ih]
      omega

/-- Truncation toward zero, the `ToIntegerOrInfinity` step of JavaScript's
`ToInt16` conversion applied when a number is stored into an `Int16Array`. -/
def ratTrunc (q : ℚ) : ℤ := if 0 ≤ q then ⌊q⌋ else ⌈q⌉

/-- The 16-bit wrap step of `ToInt16`: reduce modulo 2^16 and reinterpret the
residue in the signed range [-32768, 32768). -/
def toInt16 (t : ℤ) : ℤ :=
  if t % 65536 < 32768 then t % 65536 else t % 65536 - 65536

/-- The per-sample conversion performed by the loop of `createBlob`
(`src/unnamed/part_000` lines 66-78): `int16[i] = data[i] * 32768`, i.e.
JavaScript `ToInt16` of the scaled sample — truncation then 16-bit wrap,
with no clamping. -/
def sampleToInt16 (x : ℚ) : ℤ := toInt16 (ratTrunc (x * 32768))

/-- The little-endian byte pair of one `Int16Array` element as exposed by the
`Uint8Array` view `new Uint8Array(int16.buffer)`. -/
def int16ToBytes (v : ℤ) : List Nat :=
  [(v % 65536).toNat % 256, (v % 65536).toNat / 256]

/-- The full `Uint8Array` view of an `Int16Array`. -/
def int16sToBytes (vs : List ℤ) : List Nat := (vs.map int16ToBytes).flatten

/-- The object literal returned by `createBlob`. -/
structure EncodedAudioPayload where
  data : String
  mimeType : String
deriving DecidableEq

/-- `createBlob` from `src/unnamed/part_000` lines 66-78: scale every float
sample by 32768 into an `Int16Array`, base64-encode its byte view, and attach
the fixed MIME descriptor. -/
def createBlob (data : List ℚ) : EncodedAudioPayload :=
  let int16 := data.map sampleToInt16
  { data := encode (int16sToBytes int16), mimeType := "audio/pcm;rate=16000" }

/-- The `AudioBuffer` produced by `decodeAudioData`: per-channel lists of
float samples at a declared sample rate. -/
structure AudioBufferQ where
  numChannels : Nat
  frameCount : Nat
  sampleRate : ℚ
  channels : List (List ℚ)
deriving DecidableEq

/-- `buffer.duration` of a Web Audio buffer: frame count over sample rate. -/
def audioBufferDuration (b : AudioBufferQ) : ℚ := (b.frameCount : ℚ) / b.sampleRate

/-- The `Int16Array` view of a byte buffer: consecutive little-endian pairs
reinterpreted as signed 16-bit values. -/
def bytesToInt16s : List Nat → List ℤ
  | b0 :: b1 :: rest => toInt16 ((b0 : ℤ) + 256 * (b1 : ℤ)) :: bytesToInt16s rest
  | _ => []

/-- `decodeAudioData` from `src/unnamed/part_000` lines 41-59: view the bytes
as an `Int16Array` (the view constructor throws on an odd byte length),
compute `frameCount = dataInt16.length / numChannels`, call
`ctx.createBuffer(numChannels, frameCount, sampleRate)` — which throws
`NotSupportedError` when the channel count or the frame count is zero, both
modelled as `none` (the sample rates this program passes, 16000 and 24000,
lie inside every conforming implementation's nominal range, so the rate
check of `createBuffer` cannot fire here) — and fill each channel with
`dataInt16[i * numChannels + channel] / 32768`. -/
def decodeAudioData (data : List Nat) (sampleRate : ℚ) (numChannels : Nat) :
    Option AudioBufferQ :=
  if data.length % 2 ≠ 0 then none
  else if numChannels = 0 then none
  else
    let dataInt16 := bytesToInt16s data
    let frameCount := dataInt16.length / numChannels
    if frameCount = 0 then none
    else
      some { numChannels := numChannels, frameCount := frameCount, sampleRate := sampleRate,
             channels := (List.range numChannels).map fun ch =>
               (List.range frameCount).map fun i =>
                 ((dataInt16.getD (i * numChannels + ch) 0 : ℤ) : ℚ) / 32768 }

/-- The sample value reconstructed after a `createBlob` / `decodeAudioData`
round trip: the 16-bit quantized sample divided back by 32768. -/
def decodedSampleQ (x : ℚ) : ℚ := ((sampleToInt16 x : ℤ) : ℚ) / 32768

/-- An `AudioBufferSourceNode` handle held in `sourcesRef`. `stopFails`
records whether calling `stop()` on the underlying node would throw (the
source code anticipates this for handles that already ended). -/
structure SourceHandle where
  startTime : ℚ
  duration : ℚ
  stopFails : Bool
deriving DecidableEq

/-- The refs and state hooks of the `App` component that the live-audio
claims are about (`src/App.tsx` lines 92-105): the session promise, media
stream (a list of track ids), script processor, analyser, input audio
context and animation frame are nullable handles; `sourcesRef` is the list
of scheduled playback handles in arrival order. -/
structure AppState where
  sessionPromise : Option Nat
  mediaStream : Option (List Nat)
  scriptProcessor : Option Nat
  analyser : Option Nat
  audioContext : Option Nat
  animationFrameId : Option Nat
  sources : List SourceHandle
  nextStartTime : ℚ
  isAssistantSpeaking : Bool
  isLiveApiConnected : Bool
  liveApiConnecting : Bool
  isLoadingText : Bool
  liveError : Option String
  textError : Option String
  liveInputTranscription : String
  liveOutputTranscription : String
deriving DecidableEq

/-- A fresh component state: every handle null, no sources, all flags off. -/
def initState : AppState where
  sessionPromise := none
  mediaStream := none
  scriptProcessor := none
  analyser := none
  audioContext := none
  animationFrameId := none
  sources := []
  nextStartTime := 0
  isAssistantSpeaking := false
  isLiveApiConnected := false
  liveApiConnecting := false
  isLoadingText := false
  liveError := none
  textError := none
  liveInputTranscription := ""
  liveOutputTranscription := ""

/-- The JavaScript error values distinguished by `handleApiError`: a
`DOMException` (which is an `Error` and carries a name and message), a plain
`Error`, a thrown string, or anything else. -/
inductive JsError
  | domException (name message : String)
  | jsError (message : String)
  | strErr (s : String)
  | other
deriving DecidableEq

/-- The first guard of `handleApiError`: `error instanceof DOMException &&
error.name === 'AbortError'`. -/
def isAbortError : JsError → Bool
  | JsError.domException name _ => name = "AbortError"
  | _ => false

/-- The message `handleApiError` computes for a non-abort error: the `message`
of an `Error` instance (a `DOMException` is one), a thrown string itself, and
a generic context message otherwise. -/
def errMessageOf (e : JsError) (context : String) : String :=
  match e with
  | JsError.domException _ message => message
  | JsError.jsError message => message
  | JsError.strErr s => s
  | JsError.other => "An error occurred during " ++ context ++ "."

/-- `handleApiError` from `src/App.tsx` lines 168-198: an AbortError clears
both error states and both busy flags; any other error writes the same
message into `textError` and `liveError` and clears the connecting flag.
(The `openSelectKey` prompt for credential errors is an external side
effect without component state.) -/
def handleApiError (e : JsError) (context : String) (st : AppState) : AppState :=
  if isAbortError e then
    { st with textError := none, liveError := none,
              isLoadingText := false, liveApiConnecting := false }
  else
    let errorMessage := errMessageOf e context
    { st with textError := some errorMessage,
              liveApiConnecting := false,
              liveError := some errorMessage }

/-- `source.stop()` on a playback handle: throws when the underlying node
rejects the call (an already-finished handle), returns unit otherwise. -/
def stopSource (s : SourceHandle) : Except String Unit :=
  if s.stopFails then Except.error "InvalidStateError" else Except.ok ()

/-- One iteration of the `sourcesRef.current.forEach` loops: `try
 { source.stop(); } catch (e) { console.warn(...); }` — the failure is
swallowed. -/
def tryStopSource (s : SourceHandle) : Except String Unit :=
  match stopSource s with
  | Except.ok u => Except.ok u
  | Except.error _ => Except.ok ()

/-- The whole `forEach` loop over the active source set, returning the
handles on which `stop` was invoked, in order. -/
def stopEachSource : List SourceHandle → Except String (List SourceHandle)
  | [] => Except.ok []
  | s :: rest => do
      let _ ← tryStopSource s
      let others ← stopEachSource rest
      Except.ok (s :: others)

/-- `stopAllAudioPlayback` from `src/App.tsx` lines 108-119: stop every
active source (failures swallowed), clear the set, reset `nextStartTime` to
0 and force the speaking flag off. The returned list records the handles on
which `stop` was invoked. -/
def stopAllAudioPlayback (st : AppState) : Except String (AppState × List SourceHandle) := do
  let stopped ← stopEachSource st.sources
  Except.ok ({ st with sources := [], nextStartTime := 0, isAssistantSpeaking := false },
             stopped)

/-- The `interrupted` branch of `onmessage` (`src/App.tsx` lines 560-572):
identical loop over the active sources, then clear the set, force the
speaking flag off and reset `nextStartTime` to 0. -/
def onInterruptedSignal (st : AppState) : Except String (AppState × List SourceHandle) := do
  let stopped ← stopEachSource st.sources
  Except.ok ({ st with sources := [], isAssistantSpeaking := false, nextStartTime := 0 },
             stopped)

/-- The audio branch of `onmessage` (`src/App.tsx` lines 528-558) for one
arriving chunk: raise `nextStartTime` to the output clock, decode the base64
PCM payload at 24 kHz mono, schedule a new source at `nextStartTime`, advance
`nextStartTime` by the buffer duration and add the handle to the set; a
decode failure is caught in the chunk's `try`/`catch`, reported through
`handleApiError` (the thrown value is an `Error` whose message is
`decodeErrMsg`), and forces the speaking flag off. -/
def onAudioPayload (st : AppState) (clock : ℚ) (payload : String)
    (decodeErrMsg : String) : AppState :=
  let st1 := { st with nextStartTime := max st.nextStartTime clock }
  match (decode payload).bind (fun bytes => decodeAudioData bytes 24000 1) with
  | some buf =>
      let src : SourceHandle :=
        { startTime := st1.nextStartTime, duration := audioBufferDuration buf,
          stopFails := false }
      { st1 with sources := st1.sources ++ [src],
                 nextStartTime := st1.nextStartTime + audioBufferDuration buf,
                 isAssistantSpeaking := true }
  | none =>
      let st2 := handleApiError (JsError.jsError decodeErrMsg) "Live API audio decoding" st1
      { st2 with isAssistantSpeaking := false }

/-- A sequence of chunk arrivals processed in delivery order; each arrival is
the output-clock reading at processing time together with the base64
payload. -/
def runAudioChunks (st : AppState) (arrivals : List (ℚ × String))
    (decodeErrMsg : String) : AppState :=
  arrivals.foldl (fun s a => onAudioPayload s a.1 a.2 decodeErrMsg) st

/-- The `onaudioprocess` capture callback (`src/App.tsx` lines 474-482):
encode the frame with `createBlob`, then
`sessionPromiseRef.current?.then((session) => session.sendRealtimeInput(...))`.
The optional chaining makes a null handle a silent no-op; the returned
payload is what reaches the transport (`none` when nothing is sent). -/
def onAudioProcess (st : AppState) (inputData : List ℚ) :
    Except String (AppState × Option EncodedAudioPayload) :=
  let pcmBlob := createBlob inputData
  match st.sessionPromise with
  | some _ => Except.ok (st, some pcmBlob)
  | none => Except.ok (st, none)

/-- The observable effects of a teardown, in the order they run. -/
inductive TeardownAction
  | clearSessionHandle
  | stopTrack (id : Nat)
  | disconnectProcessor (id : Nat)
  | clearProcessorHandler (id : Nat)
  | disconnectAnalyser (id : Nat)
  | closeInputContext (id : Nat)
  | stopPlaybackSources (count : Nat)
  | cancelVisualization (id : Nat)
  | setConnectedFalse
  | setConnectingFalse
  | sessionClose (id : Nat)
deriving DecidableEq

/-- `mediaStreamRef.current.getTracks().forEach(track => track.stop())`:
dereferencing a null stream would throw; on a live stream every track is
stopped. -/
def stopMediaTracks : Option (List Nat) → Except String (List TeardownAction)
  | none => Except.error "TypeError: mediaStream is null"
  | some tracks => Except.ok (tracks.map TeardownAction.stopTrack)

/-- `scriptProcessorRef.current.disconnect(); ... .onaudioprocess = null`:
throws on a null handle. -/
def disconnectScriptProcessor : Option Nat → Except String (List TeardownAction)
  | none => Except.error "TypeError: scriptProcessor is null"
  | some id =>
      Except.ok [TeardownAction.disconnectProcessor id, TeardownAction.clearProcessorHandler id]

/-- `analyserRef.current.disconnect()`: throws on a null handle. -/
def disconnectAnalyserNode : Option Nat → Except String (List TeardownAction)
  | none => Except.error "TypeError: analyser is null"
  | some id => Except.ok [TeardownAction.disconnectAnalyser id]

/-- `audioContextRef.current.close().catch(...)`: throws on a null handle;
failures of the close itself are caught and only logged. -/
def closeAudioContext : Option Nat → Except String (List TeardownAction)
  | none => Except.error "TypeError: audioContext is null"
  | some id => Except.ok [TeardownAction.closeInputContext id]

/-- `stopAudioVisualization` from `src/App.tsx` lines 326-336: cancel the
animation frame behind a null guard and clear the canvas (a pure UI
effect). -/
def stopAudioVisualization (st : AppState) : AppState × List TeardownAction :=
  match st.animationFrameId with
  | some id => ({ st with animationFrameId := none }, [TeardownAction.cancelVisualization id])
  | none => (st, [])

/-- `stopLiveConversation` from `src/App.tsx` lines 338-369. The first
statement registers `session.close()` on the still-held promise — a callback
that runs in a later microtask, strictly after this synchronous body, so in
the trace of effects that actually run it appears last; the second statement
clears the session handle, which is therefore the first effect to run. The
remaining releases are each guarded by a null check on their handle, the
shared playback state is cleared through `stopAllAudioPlayback`, and the
connection flags are dropped. -/
def stopLiveConversation (st : AppState) :
    Except String (AppState × List TeardownAction) := do
  let deferredClose : List TeardownAction :=
    match st.sessionPromise with
    | some s => [TeardownAction.sessionClose s]
    | none => []
  let st1 : AppState := { st with sessionPromise := none }
  let (st2, tr2) ←
    match st1.mediaStream with
    | some ms => do
        let acts ← stopMediaTracks (some ms)
        Except.ok ({ st1 with mediaStream := none }, acts)
    | none => Except.ok (st1, ([] : List TeardownAction))
  let (st3, tr3) ←
    match st2.scriptProcessor with
    | some sp => do
        let acts ← disconnectScriptProcessor (some sp)
        Except.ok ({ st2 with scriptProcessor := none }, acts)
    | none => Except.ok (st2, ([] : List TeardownAction))
  let (st4, tr4) ←
    match st3.analyser with
    | some an => do
        let acts ← disconnectAnalyserNode (some an)
        Except.ok ({ st3 with analyser := none }, acts)
    | none => Except.ok (st3, ([] : List TeardownAction))
  let (st5, tr5) ←
    match st4.audioContext with
    | some ac => do
        let acts ← closeAudioContext (some ac)
        Except.ok ({ st4 with audioContext := none }, acts)
    | none => Except.ok (st4, ([] : List TeardownAction))
  let (st6, stopped) ← stopAllAudioPlayback st5
  let (st7, tr7) := stopAudioVisualization st6
  let st8 : AppState := { st7 with isLiveApiConnected := false, liveApiConnecting := false }
  Except.ok (st8,
    TeardownAction.clearSessionHandle ::
      (tr2 ++ tr3 ++ tr4 ++ tr5 ++
       [TeardownAction.stopPlaybackSources stopped.length] ++ tr7 ++
       [TeardownAction.setConnectedFalse, TeardownAction.setConnectingFalse] ++
       deferredClose))

/-- The end state every invocation of `stopLiveConversation` produces: all
handles null, no sources, cursor reset and flags off; error and transcript
fields keep their values. -/
def clearedState (st : AppState) : AppState :=
  { st with sessionPromise := none, mediaStream := none, scriptProcessor := none,
            analyser := none, audioContext := none, animationFrameId := none,
            sources := [], nextStartTime := 0, isAssistantSpeaking := false,
            isLiveApiConnected := false, liveApiConnecting := false }

/-- The `onclose` callback (`src/App.tsx` lines 579-591): drop the connection
flags, record a user-visible message when the close code is not the normal
1000, clear both transcripts and force the speaking flag off. No resource
handle is touched. -/
def onCloseEvent (st : AppState) (code : Nat) (reason : String) : AppState :=
  let st1 := { st with isLiveApiConnected := false, liveApiConnecting := false }
  let msg : String :=
    "Live API closed unexpectedly: Code " ++ toString code ++ ", Reason: " ++ reason
  let st2 :=
    if code ≠ 1000 then { st1 with liveError := some msg } else st1
  { st2 with liveInputTranscription := "", liveOutputTranscription := "",
             isAssistantSpeaking := false }

/-- Reduction of a successful bind in the `Except` monad. -/
theorem except_bind_ok {ε α β : Type} (a : α) (f : α → Except ε β) :
    (Except.ok a >>= f : Except ε β) = f a := rfl

/-- The swallow wrapper always succeeds, whether or not the underlying
`stop()` throws. -/
theorem tryStopSource_ok (s : SourceHandle) : tryStopSource s = Except.ok () := by
  unfold tryStopSource stopSource
  cases s.stopFails <;> simp

/-- The `forEach` stop loop never propagates a failure and invokes `stop` on
every handle in order. -/
theorem stopEachSource_ok : ∀ l : List SourceHandle, stopEachSource l = Except.ok l
  | [] => rfl
  | s :: rest => by
      have ih := stopEachSource_ok rest
      simp only [stopEachSource, tryStopSource_ok s, ih, except_bind_ok]

/-- Claim C2: after the `interrupted` branch of `onmessage` (and likewise
after any `stopAllAudioPlayback`), `stop` has been invoked on every handle of
the active source set (failures on already-finished handles swallowed, not
propagated — the call returns `ok` for every state), the set is empty, the
assistant-speaking flag is false and `nextStartTime` is 0. -/
theorem interruption_clears_state_claim (st : AppState) :
    onInterruptedSignal st =
      Except.ok ({ st with sources := [], isAssistantSpeaking := false, nextStartTime := 0 },
                 st.sources) ∧
    stopAllAudioPlayback st =
      Except.ok ({ st with sources := [], nextStartTime := 0, isAssistantSpeaking := false },
                 st.sources) := by
  constructor <;>
    simp only [onInterruptedSignal, stopAllAudioPlayback, stopEachSource_ok, except_bind_ok]

/-- Claim C10: for every error that is not a `DOMException` named
`AbortError`, `handleApiError` writes the same message into the text-query
error state and the live-session error state and clears the live connecting
flag, regardless of the context that produced the error. -/
theorem handleApiError_frame_effect_claim (e : JsError) (context : String) (st : AppState)
    (h : isAbortError e = false) :
    (handleApiError e context st).textError = some (errMessageOf e context) ∧
    (handleApiError e context st).liveError = some (errMessageOf e context) ∧
    (handleApiError e context st).textError = (handleApiError e context st).liveError ∧
    (handleApiError e context st).liveApiConnecting = false := by
  simp [handleApiError, h]

/-- Witness for C10 at a concrete `Error` thrown from the text path. -/
theorem handleApiError_frame_effect_claim_witness :
    isAbortError (JsError.jsError "quota exceeded") = false ∧
    ((handleApiError (JsError.jsError "quota exceeded") "text generation" initState).textError =
        some (errMessageOf (JsError.jsError "quota exceeded") "text generation") ∧
      (handleApiError (JsError.jsError "quota exceeded") "text generation" initState).liveError =
        some (errMessageOf (JsError.jsError "quota exceeded") "text generation") ∧
      (handleApiError (JsError.jsError "quota exceeded") "text generation" initState).textError =
        (handleApiError (JsError.jsError "quota exceeded") "text generation" initState).liveError ∧
      (handleApiError (JsError.jsError "quota exceeded") "text generation"
          initState).liveApiConnecting = false) :=
  ⟨rfl, handleApiError_frame_effect_claim (JsError.jsError "quota exceeded")
    "text generation" initState rfl⟩

/-- Evaluation helper: when the scaled sample is an integer `t`, the
`createBlob` conversion is exactly the 16-bit wrap of `t`. -/
theorem sampleToInt16_eval (x : ℚ) (t : ℤ) (hx : x * 32768 = (t : ℚ)) :
    sampleToInt16 x = toInt16 t := by
  unfold sampleToInt16
  rw [hx]
  congr 1
  unfold ratTrunc
  split
  · exact Int.floor_intCast t
  · exact Int.ceil_intCast t

/-- Claim C8: `createBlob` always declares the MIME descriptor
`audio/pcm;rate=16000`, and its per-sample conversion scales by 32768 and
truncates with 16-bit wrap-around instead of clamping: 3/2 wraps to -16384
(saturation would give 32767) and exactly 1 wraps to -32768; the payload of
the out-of-range sample 3/2 coincides with that of the in-range sample -1/2. -/
theorem createBlob_wrap_claim :
    (∀ data : List ℚ, (createBlob data).mimeType = "audio/pcm;rate=16000") ∧
    sampleToInt16 (3 / 2) = -16384 ∧
    sampleToInt16 1 = -32768 ∧
    sampleToInt16 (3 / 2) ≠ 32767 ∧
    (createBlob [(3 / 2 : ℚ)]).data = (createBlob [(-1 / 2 : ℚ)]).data := by
  have e1 : sampleToInt16 (3 / 2) = -16384 := by
    rw [sampleToInt16_eval (3 / 2) 49152 (by norm_num)]; decide
  have e2 : sampleToInt16 1 = -32768 := by
    rw [sampleToInt16_eval 1 32768 (by norm_num)]; decide
  have e3 : sampleToInt16 (-1 / 2) = -16384 := by
    rw [sampleToInt16_eval (-1 / 2) (-16384) (by norm_num)]; decide
  refine ⟨fun data => rfl, e1, e2, by rw [e1]; decide, ?_⟩
  simp only [createBlob, List.map_cons, List.map_nil, e1, e3]

/-- Claim C6: decoding the base64 encoding of any byte sequence (any
`Uint8Array` content, i.e. bytes below 256), including the empty one,
returns exactly the original bytes. -/
theorem base64_roundtrip_claim (bytes : List Nat) (h : ∀ b ∈ bytes, b < 256) :
    decode (encode bytes) = some bytes :=
  atob_btoa bytes h

/-- Witness for C6 on the bytes of "Man" and on the empty sequence. -/
theorem base64_roundtrip_claim_witness :
    ((∀ b ∈ [77, 97, 110], b < 256) ∧ decode (encode [77, 97, 110]) = some [77, 97, 110]) ∧
    ((∀ b ∈ ([] : List Nat), b < 256) ∧ decode (encode []) = some []) :=
  ⟨⟨by decide, base64_roundtrip_claim [77, 97, 110] (by decide)⟩,
   ⟨by decide, base64_roundtrip_claim [] (by decide)⟩⟩

/-- The trace of effects one `stopLiveConversation` call runs, in execution
order: the synchronous handle clear first, then the guarded releases, and
last the asynchronous `session.close()` registered on the old promise
(which runs in a later microtask). -/
def stopTraceOf (st : AppState) : List TeardownAction :=
  TeardownAction.clearSessionHandle ::
    ((match st.mediaStream with
      | some ms => ms.map TeardownAction.stopTrack
      | none => []) ++
     (match st.scriptProcessor with
      | some sp => [TeardownAction.disconnectProcessor sp,
                    TeardownAction.clearProcessorHandler sp]
      | none => []) ++
     (match st.analyser with
      | some an => [TeardownAction.disconnectAnalyser an]
      | none => []) ++
     (match st.audioContext with
      | some ac => [TeardownAction.closeInputContext ac]
      | none => []) ++
     [TeardownAction.stopPlaybackSources st.sources.length] ++
     (match st.animationFrameId with
      | some af => [TeardownAction.cancelVisualization af]
      | none => []) ++
     [TeardownAction.setConnectedFalse, TeardownAction.setConnectingFalse] ++
     (match st.sessionPromise with
      | some s => [TeardownAction.sessionClose s]
      | none => []))

set_option maxHeartbeats 2000000 in
/-- `stopLiveConversation` never throws: from every state it succeeds,
produces the fully-cleared state and runs the trace `stopTraceOf`. -/
theorem stopLiveConversation_spec (st : AppState) :
    stopLiveConversation st = Except.ok (clearedState st, stopTraceOf st) := by
  obtain ⟨sp, ms, spr, an, ac, af, srcs, nst, f1, f2, f3, f4, f5, f6, f7, f8⟩ := st
  cases sp <;> cases ms <;> cases spr <;> cases an <;> cases ac <;> cases af <;>
    simp only [stopLiveConversation, stopTraceOf, clearedState, stopAllAudioPlayback,
      stopEachSource_ok, except_bind_ok, stopMediaTracks, disconnectScriptProcessor,
      disconnectAnalyserNode, closeAudioContext, stopAudioVisualization,
      List.nil_append, List.append_nil, List.cons_append, List.append_assoc]

/-- Tearing down an already-cleared state changes nothing. -/
theorem clearedState_idem (st : AppState) : clearedState (clearedState st) = clearedState st :=
  rfl

/-- Claim C4: invoking `stopLiveConversation` twice in succession, from any
state, succeeds both times (no exception — every underlying release is
guarded by a null check on its handle) and ends in the same state as
invoking it once. -/
theorem teardown_idempotence_claim (st : AppState) :
    stopLiveConversation st = Except.ok (clearedState st, stopTraceOf st) ∧
    stopLiveConversation (clearedState st) =
      Except.ok (clearedState st, stopTraceOf (clearedState st)) := by
  refine ⟨stopLiveConversation_spec st, ?_⟩
  rw [stopLiveConversation_spec (clearedState st), clearedState_idem]

/-- Claim C3: `stopLiveConversation` clears the session-promise handle before
any other cleanup effect runs (`clearSessionHandle` heads the trace of
executed effects; the `session.close()` registered in the first statement
runs only in a later microtask and therefore appears last), so a capture
callback firing after stop sees a null handle: it throws nothing and sends
nothing to the transport. -/
theorem post_teardown_send_noop_claim (st : AppState) (frame : List ℚ) :
    stopLiveConversation st = Except.ok (clearedState st, stopTraceOf st) ∧
    (clearedState st).sessionPromise = none ∧
    (stopTraceOf st).head? = some TeardownAction.clearSessionHandle ∧
    onAudioProcess (clearedState st) frame = Except.ok (clearedState st, none) :=
  ⟨stopLiveConversation_spec st, rfl, rfl, rfl⟩

/-- A state in mid-conversation when the remote side closes abnormally:
session promise pending, microphone and processing chain live, one source
playing. -/
def abnormalCloseInput : AppState :=
  { initState with
      sessionPromise := some 1, mediaStream := some [5], scriptProcessor := some 2,
      analyser := some 3, audioContext := some 4, animationFrameId := some 6,
      sources := [{ startTime := 0, duration := 1 / 10, stopFails := false }],
      isLiveApiConnected := true, isAssistantSpeaking := true }

/-- Claim C5 (code bug): on an abnormal close (code 1006) the `onclose`
handler does set a user-visible error referencing the close code, but it
releases nothing — the microphone stream, capture node, input audio context,
session promise and active playback sources all survive the handler, while
the spec requires every resource to be released on the abnormal-close path. -/
theorem abnormal_close_resource_leak :
    (onCloseEvent abnormalCloseInput 1006 "abnormal closure").liveError =
      some "Live API closed unexpectedly: Code 1006, Reason: abnormal closure" ∧
    (onCloseEvent abnormalCloseInput 1006 "abnormal closure").mediaStream = some [5] ∧
    (onCloseEvent abnormalCloseInput 1006 "abnormal closure").scriptProcessor = some 2 ∧
    (onCloseEvent abnormalCloseInput 1006 "abnormal closure").audioContext = some 4 ∧
    (onCloseEvent abnormalCloseInput 1006 "abnormal closure").sessionPromise = some 1 ∧
    (onCloseEvent abnormalCloseInput 1006 "abnormal closure").sources =
      [{ startTime := 0, duration := 1 / 10, stopFails := false }] :=
  ⟨rfl, rfl, rfl, rfl, rfl, rfl⟩

/-- The contiguity relation between consecutively scheduled sources: the
later one starts no earlier than the end of the earlier one. -/
def schedR (a b : SourceHandle) : Prop := a.startTime + a.duration ≤ b.startTime

/-- Scheduling invariant of the chunk-arrival handler: scheduled sources are
back-to-back in arrival order, durations are non-negative, and the cursor is
at or past the end of the last scheduled source. -/
def schedInv (st : AppState) : Prop :=
  (∀ s ∈ st.sources, 0 ≤ s.duration) ∧
  List.Chain' schedR st.sources ∧
  ∀ l ∈ st.sources.getLast?, l.startTime + l.duration ≤ st.nextStartTime

/-- The sample rate of a decoded buffer is the one passed in. -/
theorem decodeAudioData_sampleRate {d : List Nat} {r : ℚ} {ch : Nat} {buf : AudioBufferQ}
    (h : decodeAudioData d r ch = some buf) : buf.sampleRate = r := by
  unfold decodeAudioData at h
  by_cases h1 : d.length % 2 ≠ 0
  · simp [h1] at h
  · by_cases h2 : ch = 0
    · simp [h1, h2] at h
    · by_cases h3 : (bytesToInt16s d).length / ch = 0
      · simp [h1, h2, h3] at h
      · simp only [h1, h2, h3, if_false, ite_false] at h
        obtain ⟨rfl⟩ := Option.some.injEq .. ▸ h
        rfl

/-- A decoded buffer at a non-negative sample rate has non-negative
duration. -/
theorem decoded_duration_nonneg {d : List Nat} {r : ℚ} {ch : Nat} {buf : AudioBufferQ}
    (hr : 0 ≤ r) (h : decodeAudioData d r ch = some buf) :
    0 ≤ audioBufferDuration buf := by
  unfold audioBufferDuration
  rw [decodeAudioData_sampleRate h]
  exact div_nonneg (Nat.cast_nonneg _) hr

/-- One chunk arrival preserves the scheduling invariant. -/
theorem onAudioPayload_schedInv (st : AppState) (clock : ℚ) (p e : String)
    (h : schedInv st) : schedInv (onAudioPayload st clock p e) := by
  obtain ⟨hd, hc, hl⟩ := h
  unfold onAudioPayload
  cases hdec : (decode p).bind (fun bytes => decodeAudioData bytes 24000 1) with
  | none =>
      refine ⟨hd, hc, ?_⟩
      intro l hmem
      simp only [handleApiError, isAbortError, if_neg] at *
      exact le_trans (hl l hmem) (le_max_left _ _)
  | some buf =>
      have hdur : 0 ≤ audioBufferDuration buf := by
        obtain ⟨bytes, _, hb2⟩ := Option.bind_eq_some.mp hdec
        exact decoded_duration_nonneg (by norm_num) hb2
      refine ⟨?_, ?_, ?_⟩
      · intro s hs
        rcases List.mem_append.mp hs with hs | hs
        · exact hd s hs
        · simp only [List.mem_singleton] at hs
          subst hs
          exact hdur
      · rw [List.chain'_append]
        refine ⟨hc, List.chain'_singleton _, ?_⟩
        intro x hx y hy
        simp only [List.head?_cons, Option.mem_def, Option.some.injEq] at hy
        subst hy
        exact le_trans (hl x hx) (le_max_left _ _)
      · intro l hmem
        have hlast : (st.sources ++
            [({ startTime := max st.nextStartTime clock,
                duration := audioBufferDuration buf, stopFails := false } :
              SourceHandle)]).getLast? =
            some { startTime := max st.nextStartTime clock,
                   duration := audioBufferDuration buf, stopFails := false } := by
          simp
        rw [hlast] at hmem
        simp only [Option.mem_def, Option.some.injEq] at hmem
        subst hmem
        exact le_refl _

/-- Processing any arrival sequence preserves the scheduling invariant. -/
theorem runAudioChunks_schedInv (arrivals : List (ℚ × String)) (e : String) :
    ∀ st : AppState, schedInv st → schedInv (runAudioChunks st arrivals e) := by
  induction arrivals with
  | nil => intro st h; exact h
  | cons a t ih =>
      intro st h
      exact ih _ (onAudioPayload_schedInv st a.1 a.2 e h)

/-- Contiguity plus non-negative durations give non-decreasing start times. -/
theorem chain'_sched_mono : ∀ l : List SourceHandle, (∀ s ∈ l, 0 ≤ s.duration) →
    List.Chain' schedR l → List.Chain' (fun x y => x.startTime ≤ y.startTime) l
  | [] => fun _ _ => List.chain'_nil
  | [a] => fun _ _ => List.chain'_singleton a
  | a :: b :: t => fun hd hc => by
      rw [List.chain'_cons] at hc ⊢
      refine ⟨?_, chain'_sched_mono (b :: t) (fun s hs => hd s (by simp [hs])) hc.2⟩
      have h1 := hc.1
      have h2 : 0 ≤ a.duration := hd a (by simp)
      unfold schedR at h1
      linarith

/-- Reading a list by index over its range is the list itself. -/
theorem range_map_getD {α β : Type} (l : List α) (d : α) (f : α → β) :
    (List.range l.length).map (fun i => f (l.getD i d)) = l.map f := by
  induction l with
  | nil => rfl
  | cons a t ih =>
      rw [List.length_cons, List.range_succ_eq_map, List.map_cons, List.map_map, List.map_cons]
      have hcomp : ((fun i => f ((a :: t).getD i d)) ∘ (· + 1)) = fun i => f (t.getD i d) := by
        funext i
        simp
      rw [hcomp, ih]
      simp

/-- Characterization of `decodeAudioData` at one channel on a non-empty even
byte count: the single channel is the normalized `Int16Array` view. -/
theorem decodeAudioData_one (data : List Nat) (r : ℚ) (h : data.length % 2 = 0)
    (hn : (bytesToInt16s data).length ≠ 0) :
    decodeAudioData data r 1 =
      some { numChannels := 1, frameCount := (bytesToInt16s data).length, sampleRate := r,
             channels := [(bytesToInt16s data).map (fun v => ((v : ℤ) : ℚ) / 32768)] } := by
  unfold decodeAudioData
  rw [if_neg (by omega), if_neg (by norm_num), if_neg (by simpa using hn)]
  have hrange : List.range 1 = [0] := by decide
  have hfun : (fun i => (((bytesToInt16s data).getD (i * 1 + 0) 0 : ℤ) : ℚ) / 32768) =
      fun i => (((bytesToInt16s data).getD i 0 : ℤ) : ℚ) / 32768 := by
    funext i
    simp
  simp only [hrange, List.map_cons, List.map_nil, Nat.div_one, hfun,
    range_map_getD (bytesToInt16s data) 0 (fun v => ((v : ℤ) : ℚ) / 32768)]

/-- A base64 payload of one PCM frame (bytes 0x00 0x80, the sample -32768),
as a remote chunk would carry it. -/
def samplePayload : String := String.mk ['A', 'I', 'A', '=']

/-- The sample payload decodes to a one-frame mono buffer holding -1. -/
theorem samplePayload_decodes :
    (decode samplePayload).bind (fun bytes => decodeAudioData bytes 24000 1) =
      some { numChannels := 1, frameCount := 1, sampleRate := 24000, channels := [[-1]] } := by
  have h1 : decode samplePayload = some [0, 128] := by decide
  rw [h1]
  show decodeAudioData [0, 128] 24000 1 = _
  rw [decodeAudioData_one [0, 128] 24000 (by decide) (by decide)]
  have h2 : bytesToInt16s [0, 128] = [-32768] := by decide
  rw [h2]
  norm_num

/-- Claim C1: the chunk-arrival handler gives each chunk the start time
`max(nextStartTime, clock)` and advances `nextStartTime` by exactly the
chunk's duration; consequently, over any arrival sequence processed with no
stop/interruption in between, the scheduled start times are non-decreasing
and each source starts no earlier than the previous start plus the previous
duration. -/
theorem monotonic_scheduling_claim (st : AppState) (clock : ℚ) (payload : String)
    (buf : AudioBufferQ) (arrivals : List (ℚ × String)) (decodeErrMsg : String)
    (h0 : st.sources = [])
    (hdec : (decode payload).bind (fun bytes => decodeAudioData bytes 24000 1) = some buf) :
    (onAudioPayload st clock payload decodeErrMsg).sources =
      st.sources ++ [{ startTime := max st.nextStartTime clock,
                       duration := audioBufferDuration buf, stopFails := false }] ∧
    (onAudioPayload st clock payload decodeErrMsg).nextStartTime =
      max st.nextStartTime clock + audioBufferDuration buf ∧
    List.Chain' schedR (runAudioChunks st arrivals decodeErrMsg).sources ∧
    List.Chain' (fun x y => x.startTime ≤ y.startTime)
      (runAudioChunks st arrivals decodeErrMsg).sources := by
  have hInv : schedInv st := by
    refine ⟨?_, ?_, ?_⟩ <;> simp [h0]
  have hrun := runAudioChunks_schedInv arrivals decodeErrMsg st hInv
  refine ⟨?_, ?_, hrun.2.1, chain'_sched_mono _ hrun.1 hrun.2.1⟩
  · simp only [onAudioPayload, hdec]
  · simp only [onAudioPayload, hdec]

/-- Witness for C1: a fresh state receiving the concrete payload. -/
theorem monotonic_scheduling_claim_witness :
    initState.sources = [] ∧
    ((decode samplePayload).bind (fun bytes => decodeAudioData bytes 24000 1) =
      some { numChannels := 1, frameCount := 1, sampleRate := 24000, channels := [[-1]] }) ∧
    ((onAudioPayload initState (1 / 10) samplePayload "decode failure").sources =
        initState.sources ++
          [{ startTime := max initState.nextStartTime (1 / 10),
             duration := audioBufferDuration
               { numChannels := 1, frameCount := 1, sampleRate := 24000, channels := [[-1]] },
             stopFails := false }] ∧
      (onAudioPayload initState (1 / 10) samplePayload "decode failure").nextStartTime =
        max initState.nextStartTime (1 / 10) +
          audioBufferDuration
            { numChannels := 1, frameCount := 1, sampleRate := 24000, channels := [[-1]] } ∧
      List.Chain' schedR
        (runAudioChunks initState [((1 : ℚ) / 10, samplePayload)] "decode failure").sources ∧
      List.Chain' (fun x y => x.startTime ≤ y.startTime)
        (runAudioChunks initState [((1 : ℚ) / 10, samplePayload)] "decode failure").sources) :=
  ⟨rfl, samplePayload_decodes,
   monotonic_scheduling_claim initState (1 / 10) samplePayload
     { numChannels := 1, frameCount := 1, sampleRate := 24000, channels := [[-1]] }
     [((1 : ℚ) / 10, samplePayload)] "decode failure" rfl samplePayload_decodes⟩

/-- Claim C9: when a received payload fails to decode, the failure stays at
the chunk boundary: the session promise, microphone stream, capture node,
input context, connected flag and scheduled sources are all untouched (the
session is not torn down), while the error is surfaced in the live error
state and the speaking flag drops. -/
theorem decode_error_nonfatal_claim (st : AppState) (clock : ℚ) (payload : String)
    (errMsg : String)
    (h : (decode payload).bind (fun bytes => decodeAudioData bytes 24000 1) = none) :
    (onAudioPayload st clock payload errMsg).sessionPromise = st.sessionPromise ∧
    (onAudioPayload st clock payload errMsg).mediaStream = st.mediaStream ∧
    (onAudioPayload st clock payload errMsg).scriptProcessor = st.scriptProcessor ∧
    (onAudioPayload st clock payload errMsg).audioContext = st.audioContext ∧
    (onAudioPayload st clock payload errMsg).isLiveApiConnected = st.isLiveApiConnected ∧
    (onAudioPayload st clock payload errMsg).sources = st.sources ∧
    (onAudioPayload st clock payload errMsg).liveError = some errMsg ∧
    (onAudioPayload st clock payload errMsg).isAssistantSpeaking = false := by
  simp [onAudioPayload, h, handleApiError, isAbortError, errMessageOf]

/-- A base64 payload whose single decoded byte cannot form a 16-bit frame,
so `decodeAudioData` fails on it. -/
def failPayload : String := String.mk ['A', 'A', '=', '=']

/-- A state in mid-conversation with a pending chunk playing, used to apply
the claim at a concrete input. -/
def liveSessionState : AppState :=
  { initState with
      sessionPromise := some 7, mediaStream := some [8], scriptProcessor := some 9,
      audioContext := some 10, isLiveApiConnected := true,
      sources := [{ startTime := 0, duration := 1 / 2, stopFails := false }] }

/-- Witness for C9: the odd-length payload fails to decode in a live state. -/
theorem decode_error_nonfatal_claim_witness :
    ((decode failPayload).bind (fun bytes => decodeAudioData bytes 24000 1) = none) ∧
    ((onAudioPayload liveSessionState 2 failPayload "decode boom").sessionPromise =
        liveSessionState.sessionPromise ∧
      (onAudioPayload liveSessionState 2 failPayload "decode boom").mediaStream =
        liveSessionState.mediaStream ∧
      (onAudioPayload liveSessionState 2 failPayload "decode boom").scriptProcessor =
        liveSessionState.scriptProcessor ∧
      (onAudioPayload liveSessionState 2 failPayload "decode boom").audioContext =
        liveSessionState.audioContext ∧
      (onAudioPayload liveSessionState 2 failPayload "decode boom").isLiveApiConnected =
        liveSessionState.isLiveApiConnected ∧
      (onAudioPayload liveSessionState 2 failPayload "decode boom").sources =
        liveSessionState.sources ∧
      (onAudioPayload liveSessionState 2 failPayload "decode boom").liveError =
        some "decode boom" ∧
      (onAudioPayload liveSessionState 2 failPayload "decode boom").isAssistantSpeaking =
        false) :=
  ⟨by decide, decode_error_nonfatal_claim liveSessionState 2 failPayload "decode boom"
    (by decide)⟩

/-- Every byte of the `Uint8Array` view is below 256. -/
theorem int16sToBytes_lt (vs : List ℤ) : ∀ b ∈ int16sToBytes vs, b < 256 := by
  intro b hb
  unfold int16sToBytes at hb
  rw [List.mem_flatten] at hb
  obtain ⟨l, hl, hbl⟩ := hb
  rw [List.mem_map] at hl
  obtain ⟨v, _, rfl⟩ := hl
  unfold int16ToBytes at hbl
  have hu : (v % 65536).toNat < 65536 := by omega
  simp only [List.mem_cons, List.not_mem_nil, or_false] at hbl
  rcases hbl with rfl | rfl
  · omega
  · omega

/-- The `Uint8Array` view of an `Int16Array` has twice as many entries. -/
theorem int16sToBytes_length (vs : List ℤ) : (int16sToBytes vs).length = 2 * vs.length := by
  induction vs with
  | nil => rfl
  | cons v t ih =>
      unfold int16sToBytes at ih ⊢
      simp only [List.map_cons, List.flatten_cons, List.length_append, ih, int16ToBytes,
        List.length_cons, List.length_nil]
      omega

/-- The 16-bit wrap always lands in the signed range. -/
theorem toInt16_bounds (t : ℤ) : -32768 ≤ toInt16 t ∧ toInt16 t < 32768 := by
  unfold toInt16
  split <;> omega

/-- Reading the byte view back through the `Int16Array` view restores every
value already in the signed 16-bit range. -/
theorem bytes_int16_roundtrip : ∀ vs : List ℤ, (∀ v ∈ vs, -32768 ≤ v ∧ v < 32768) →
    bytesToInt16s (int16sToBytes vs) = vs
  | [], _ => rfl
  | v :: t, h => by
      have hv := h v (by simp)
      have ih := bytes_int16_roundtrip t (fun x hx => h x (by simp [hx]))
      show bytesToInt16s
        ((v % 65536).toNat % 256 :: (v % 65536).toNat / 256 :: int16sToBytes t) = v :: t
      rw [bytesToInt16s, ih]
      have hu : ((((v % 65536).toNat % 256 : Nat) : ℤ) + 256 * (((v % 65536).toNat / 256 : Nat) : ℤ)) =
          v % 65536 := by omega
      rw [hu]
      congr 1
      unfold toInt16
      split <;> omega

/-- Truncation toward zero moves a rational by less than 1. -/
theorem ratTrunc_close (q : ℚ) : |q - (ratTrunc q : ℚ)| ≤ 1 := by
  unfold ratTrunc
  split
  · have h1 := Int.floor_le q
    have h2 := Int.lt_floor_add_one q
    rw [abs_le]
    constructor <;> linarith
  · have h1 := Int.le_ceil q
    have h2 := Int.ceil_lt_add_one q
    rw [abs_le]
    constructor <;> linarith

/-- For samples in [-1, 1) the scaled truncation stays inside the signed
16-bit range, so the wrap step of the conversion is the identity. -/
theorem sampleToInt16_in_range (x : ℚ) (h1 : -1 ≤ x) (h2 : x < 1) :
    sampleToInt16 x = ratTrunc (x * 32768) := by
  have hq1 : (-32768 : ℚ) ≤ x * 32768 := by linarith
  have hq2 : x * 32768 < 32768 := by linarith
  have ht1 : (-32768 : ℤ) ≤ ratTrunc (x * 32768) := by
    unfold ratTrunc
    split
    · rename_i hq
      have : (0 : ℤ) ≤ ⌊x * 32768⌋ := Int.le_floor.mpr (by exact_mod_cast hq)
      omega
    · have hceil := Int.le_ceil (x * 32768)
      have : ((-32768 : ℤ) : ℚ) ≤ (⌈x * 32768⌉ : ℚ) := by
        push_cast
        linarith
      exact_mod_cast this
  have ht2 : ratTrunc (x * 32768) < 32768 := by
    unfold ratTrunc
    split
    · exact Int.floor_lt.mpr (by push_cast; linarith)
    · rename_i hq
      have : ⌈x * 32768⌉ ≤ 0 := Int.ceil_le.mpr (by push_cast; linarith [le_of_not_le hq])
      omega
  unfold sampleToInt16 toInt16
  split <;> omega

/-- Per-sample quantization bound for in-range samples. -/
theorem sample_quant_bound (x : ℚ) (h1 : -1 ≤ x) (h2 : x < 1) :
    |x - decodedSampleQ x| ≤ 1 / 32768 := by
  unfold decodedSampleQ
  rw [sampleToInt16_in_range x h1 h2]
  have hclose := ratTrunc_close (x * 32768)
  have h32 : (0 : ℚ) < 32768 := by norm_num
  have hrw : x - (ratTrunc (x * 32768) : ℚ) / 32768 =
      (x * 32768 - (ratTrunc (x * 32768) : ℚ)) / 32768 := by
    field_simp
  rw [hrw, abs_div, abs_of_pos h32]
  exact (div_le_div_iff_of_pos_right h32).mpr hclose

/-- Claim C7, amended: for sample sequences with every value in [-1, 1) —
the left-closed, right-open interval — encoding with `createBlob` and
decoding the resulting payload bytes back at one channel reproduces each
sample to within 1/32768. The value 1 itself is excluded (it wraps, see the
counterexample), and so is the empty sequence, on which the program's
`decodeAudioData` throws through `createBuffer`'s zero-frame-count
rejection. -/
theorem pcm_roundtrip_amended (samples : List ℚ) (hne : samples ≠ [])
    (h : ∀ x ∈ samples, -1 ≤ x ∧ x < 1) :
    ((decode ((createBlob samples).data)).bind fun bytes => decodeAudioData bytes 16000 1) =
      some { numChannels := 1, frameCount := samples.length, sampleRate := 16000,
             channels := [samples.map decodedSampleQ] } ∧
    ∀ i, i < samples.length →
      |samples.getD i 0 - decodedSampleQ (samples.getD i 0)| ≤ 1 / 32768 := by
  have hvs : ∀ v ∈ samples.map sampleToInt16, -32768 ≤ v ∧ v < 32768 := by
    intro v hv
    rw [List.mem_map] at hv
    obtain ⟨x, _, rfl⟩ := hv
    exact toInt16_bounds _
  constructor
  · have hdec : decode ((createBlob samples).data) =
        some (int16sToBytes (samples.map sampleToInt16)) :=
      atob_btoa (int16sToBytes (samples.map sampleToInt16))
        (int16sToBytes_lt (samples.map sampleToInt16))
    rw [hdec]
    show decodeAudioData (int16sToBytes (samples.map sampleToInt16)) 16000 1 = _
    have hlen : (bytesToInt16s (int16sToBytes (samples.map sampleToInt16))).length ≠ 0 := by
      rw [bytes_int16_roundtrip (samples.map sampleToInt16) hvs]
      simpa [List.length_eq_zero] using hne
    rw [decodeAudioData_one _ 16000 (by rw [int16sToBytes_length]; omega) hlen]
    rw [bytes_int16_roundtrip (samples.map sampleToInt16) hvs]
    simp only [List.length_map, List.map_map]
    rfl
  · intro i hi
    have hmem : samples.getD i 0 ∈ samples := by
      rw [List.getD_eq_getElem samples 0 hi]
      exact List.getElem_mem hi
    exact sample_quant_bound _ (h _ hmem).1 (h _ hmem).2

/-- Witness for the amended C7 at the single in-range sample 1/2. -/
theorem pcm_roundtrip_amended_witness :
    ([(1 : ℚ) / 2] ≠ ([] : List ℚ)) ∧
    (∀ x ∈ [(1 : ℚ) / 2], -1 ≤ x ∧ x < 1) ∧
    (((decode ((createBlob [(1 : ℚ) / 2]).data)).bind fun bytes =>
          decodeAudioData bytes 16000 1) =
        some { numChannels := 1, frameCount := ([(1 : ℚ) / 2]).length, sampleRate := 16000,
               channels := [([(1 : ℚ) / 2]).map decodedSampleQ] } ∧
      ∀ i, i < ([(1 : ℚ) / 2]).length →
        |([(1 : ℚ) / 2]).getD i 0 - decodedSampleQ (([(1 : ℚ) / 2]).getD i 0)| ≤ 1 / 32768) :=
  ⟨by simp,
   by
    intro x hx
    rw [List.mem_singleton] at hx
    subst hx
    norm_num,
   pcm_roundtrip_amended [(1 : ℚ) / 2] (by simp) (by
    intro x hx
    rw [List.mem_singleton] at hx
    subst hx
    norm_num)⟩

/-- Counterexample to claim C7 as stated: the sample 1 lies in [-1, 1], yet
the round trip returns -1 for it — `1 * 32768 = 32768` wraps to -32768 under
the 16-bit conversion — an error of 2, far above the claimed 1/32768. -/
theorem pcm_roundtrip_claim_counterexample :
    (∀ x ∈ [(1 : ℚ)], -1 ≤ x ∧ x ≤ 1) ∧
    ((decode ((createBlob [(1 : ℚ)]).data)).bind fun bytes => decodeAudioData bytes 16000 1) =
      some { numChannels := 1, frameCount := 1, sampleRate := 16000, channels := [[-1]] } ∧
    ¬ |(1 : ℚ) - (-1)| ≤ 1 / 32768 := by
  refine ⟨?_, ?_, by norm_num⟩
  · intro x hx
    rw [List.mem_singleton] at hx
    subst hx
    norm_num
  · have e2 : sampleToInt16 1 = -32768 := by
      rw [sampleToInt16_eval 1 32768 (by norm_num)]
      decide
    have hmap : ([(1 : ℚ)]).map sampleToInt16 = [-32768] := by
      simp [e2]
    have hdec : decode ((createBlob [(1 : ℚ)]).data) =
        some (int16sToBytes (([(1 : ℚ)]).map sampleToInt16)) :=
      atob_btoa (int16sToBytes (([(1 : ℚ)]).map sampleToInt16))
        (int16sToBytes_lt (([(1 : ℚ)]).map sampleToInt16))
    rw [hdec, hmap]
    have hb : int16sToBytes [(-32768 : ℤ)] = [0, 128] := by decide
    rw [hb]
    show decodeAudioData [0, 128] 16000 1 = _
    rw [decodeAudioData_one [0, 128] 16000 (by decide) (by decide)]
    have h2 : bytesToInt16s [0, 128] = [-32768] := by decide
    rw [h2]
    norm_num
